import Mathlib

/-!
Verification of the thumbor-url-generator scripts: a shallow embedding of
`src/thumbor-url-generator.py` (URL encoder, unsafe/safe URL builders, CLI and
environment option resolution) and of `src/turl.py` where it differs, with
theorems checking the repository's specification against the code.

Python strings are modelled as Lean `String`/`List Char`; dynamically typed
Python values reaching the builders are modelled by `PyVal`; Python exceptions
are modelled by `Except PyErr`.
-/

/-- Error kinds raised by the scripts, named after the specification's error
taxonomy (ConfigurationError, EncodingError, SigningError, ClipboardError) plus
Python's TypeError for `str + int` concatenation. -/
inductive PyErr where
  | typeError
  | configError
  | signingError
  | clipboardError
  deriving DecidableEq, Repr

/-- A dynamically typed Python value as it reaches the URL builders: the
resolved width/height are either an `int` (from the argparse `type=int` flag or
the `width = 0` fallback), a `str` (from `os.getenv`), or a `bool`
(for the store_true flags). -/
inductive PyVal where
  | int : Int → PyVal
  | str : String → PyVal
  | bool : Bool → PyVal
  deriving DecidableEq, Repr

/-- Python `+` on the values above: `str + str` concatenates, numbers add
(`bool` is an `int` subtype in Python), and mixing `str` with a number raises
`TypeError`. -/
def pyAdd : PyVal → PyVal → Except PyErr PyVal
  | .str a, .str b => .ok (.str (a ++ b))
  | .int a, .int b => .ok (.int (a + b))
  | .int a, .bool b => .ok (.int (a + (if b then 1 else 0)))
  | .bool a, .int b => .ok (.int ((if a then 1 else 0) + b))
  | .bool a, .bool b => .ok (.int ((if a then 1 else 0) + (if b then 1 else 0)))
  | _, _ => .error .typeError

/-- Python truthiness of a value (`if unsafe:` etc.): nonzero ints, non-empty
strings and `True` are truthy. -/
def pyTruthy : PyVal → Bool
  | .int n => decide (n ≠ 0)
  | .str s => decide (s ≠ "")
  | .bool b => b

/-- Truthiness of an optional value; Python `None` is falsy. -/
def pyTruthyOpt : Option PyVal → Bool
  | none => false
  | some v => pyTruthy v

/-- The characters removed by Python's `str.strip()`: exactly those with
`str.isspace()` true, i.e. U+0009–U+000D, U+001C–U+001F, the space, U+0085
(next line), U+00A0 (no-break space), U+1680 (Ogham space mark),
U+2000–U+200A (typographic spaces), U+2028, U+2029 (line/paragraph
separators), U+202F, U+205F and U+3000 (narrow no-break, medium
mathematical and ideographic spaces). -/
def isPySpace (c : Char) : Bool :=
  [9, 10, 11, 12, 13, 28, 29, 30, 31, 32, 0x85, 0xA0, 0x1680,
    0x2000, 0x2001, 0x2002, 0x2003, 0x2004, 0x2005, 0x2006, 0x2007,
    0x2008, 0x2009, 0x200A, 0x2028, 0x2029, 0x202F, 0x205F, 0x3000].contains c.toNat

/-- Remove the longest suffix of characters satisfying `p` (the right half of
`str.strip()`). -/
def dropTrailing (p : Char → Bool) : List Char → List Char
  | [] => []
  | c :: rest =>
    match dropTrailing p rest with
    | [] => if p c then [] else [c]
    | r => c :: r

/-- Python `str.strip()` on a character list: drop leading and trailing
whitespace. -/
def stripList (l : List Char) : List Char :=
  dropTrailing isPySpace (l.dropWhile isPySpace)

/-- Python `str.strip()`. -/
def pyStrip (s : String) : String :=
  ⟨stripList s.data⟩

/-- Uppercase hexadecimal digit table used by `urllib.parse.quote`
(`'%{:02X}'` formatting). -/
def hexDigit (d : Nat) : Char :=
  List.getD ("0123456789ABCDEF".data) d '0'

/-- Is `c` an ASCII hexadecimal digit (as accepted by percent-decoding)? -/
def isHexDigit (c : Char) : Bool :=
  ('0' ≤ c && c ≤ '9') || ('A' ≤ c && c ≤ 'F') || ('a' ≤ c && c ≤ 'f')

/-- Numeric value of a hexadecimal digit character. -/
def hexVal (c : Char) : Nat :=
  if '0' ≤ c ∧ c ≤ '9' then c.toNat - 48
  else if 'A' ≤ c ∧ c ≤ 'F' then c.toNat - 55
  else if 'a' ≤ c ∧ c ≤ 'f' then c.toNat - 87
  else 0

/-- Bytes left unescaped by `urllib.parse.quote` with its default `safe='/'`:
the always-safe set (ASCII letters, digits, `_`, `.`, `-`, `~`) plus `/`. -/
def isSafeByte (b : Nat) : Bool :=
  (65 ≤ b && b ≤ 90) || (97 ≤ b && b ≤ 122) || (48 ≤ b && b ≤ 57) ||
    b == 45 || b == 46 || b == 95 || b == 126 || b == 47

/-- UTF-8 encoding of a Unicode code point, as `str.encode('utf-8')` performs
before `urllib.parse.quote` percent-encodes byte by byte. -/
def utf8Bytes (n : Nat) : List Nat :=
  if n < 0x80 then [n]
  else if n < 0x800 then [0xC0 + n / 64, 0x80 + n % 64]
  else if n < 0x10000 then [0xE0 + n / 4096, 0x80 + (n / 64) % 64, 0x80 + n % 64]
  else [0xF0 + n / 262144, 0x80 + (n / 4096) % 64, 0x80 + (n / 64) % 64, 0x80 + n % 64]

/-- Percent-encode one byte with uppercase hex, `'%{:02X}'`. -/
def pctEncode (b : Nat) : List Char :=
  ['%', hexDigit (b / 16), hexDigit (b % 16)]

/-- `urllib.parse.quote` on a single byte: safe bytes stand for themselves,
every other byte is percent-encoded. -/
def byteQuote (b : Nat) : List Char :=
  if isSafeByte b then [Char.ofNat b] else pctEncode b

/-- `urllib.parse.quote` over a byte sequence. -/
def bytesQuote : List Nat → List Char
  | [] => []
  | b :: rest => byteQuote b ++ bytesQuote rest

/-- `urllib.parse.quote` of one character: UTF-8 encode it, then quote each
byte. -/
def quoteChar (c : Char) : List Char :=
  bytesQuote (utf8Bytes c.toNat)

/-- `urllib.parse.quote(in_url)` with the default `safe='/'`, character by
character (UTF-8 encoding a string and concatenating per-character UTF-8
encodings agree). -/
def quoteList : List Char → List Char
  | [] => []
  | c :: rest => quoteChar c ++ quoteList rest

/-- Python `t_url.replace("/", "%2F")`: the pattern is a single character, so
the left-to-right non-overlapping replacement expands each `/` in place. -/
def replaceSlashList : List Char → List Char
  | [] => []
  | c :: rest => (if c = '/' then ['%', '2', 'F'] else [c]) ++ replaceSlashList rest

/-- `encode_url` from both scripts: `parse.quote(in_url)` followed by
`.replace("/", "%2F")`.  (The `try`/`except` re-raises unchanged and the
logging calls have no effect on the value.) -/
def encodeList (l : List Char) : List Char :=
  replaceSlashList (quoteList l)

/-- `encode_url(in_url)` on Lean strings. -/
def encode_url (in_url : String) : String :=
  ⟨encodeList in_url.data⟩

/-- The contribution of a single input character to `encode_url`'s output:
quote it, then expand any `/` to `%2F`. -/
def ecChar (c : Char) : List Char :=
  replaceSlashList (quoteChar c)

/-- The claim's inverse transformation, first step: restore every occurrence of
`"%2F"` to `/`, scanning left to right without overlap. -/
def replace2FList : List Char → List Char
  | '%' :: '2' :: 'F' :: rest => '/' :: replace2FList rest
  | c :: rest => c :: replace2FList rest
  | [] => []

/-- The claim's inverse transformation, second step: percent-decode, turning
each valid `%XY` triple into the byte it denotes and leaving invalid escapes
alone (as `urllib.parse.unquote` does). -/
def unquoteList : List Char → List Char
  | [] => []
  | '%' :: h1 :: h2 :: rest =>
    if isHexDigit h1 ∧ isHexDigit h2 then
      Char.ofNat (hexVal h1 * 16 + hexVal h2) :: unquoteList rest
    else '%' :: unquoteList (h1 :: h2 :: rest)
  | c :: rest => c :: unquoteList rest

/-- Restore `%2F` to `/` on strings. -/
def restore2F (s : String) : String :=
  ⟨replace2FList s.data⟩

/-- Percent-decode on strings. -/
def percentDecode (s : String) : String :=
  ⟨unquoteList s.data⟩

/-- `generate_unsafe_url` from `src/thumbor-url-generator.py`, restricted to
string-typed width and height (the only typing under which Python's `+` chain
is defined; see `generate_unsafe_url_dyn` for the dynamically typed version).
The dead `if encode_url is None` check of the source compares the function
object to `None` and can never fire; the final `.strip()` is applied before
returning. -/
def generate_unsafe_url (thumbor_base_url in_image_url img_width img_height : String)
    (is_smart : Bool) : String :=
  let encoded_url := encode_url in_image_url
  let unsafe_url :=
    if is_smart then
      thumbor_base_url ++ "/unsafe/" ++ img_width ++ "x" ++ img_height ++ "/smart/" ++ encoded_url
    else
      thumbor_base_url ++ "/unsafe/" ++ img_width ++ "x" ++ img_height ++ "/" ++ encoded_url
  pyStrip unsafe_url

/-- Python `.strip()` called on a value: only defined on `str`. -/
def pyStripVal : PyVal → Except PyErr PyVal
  | .str s => .ok (.str (pyStrip s))
  | _ => .error .typeError

/-- `generate_unsafe_url` with dynamically typed width and height, mirroring
the source's `+` chains (left associated) under Python typing: the
concatenation raises `TypeError` as soon as a non-`str` operand meets a
`str`. -/
def generate_unsafe_url_dyn (thumbor_base_url : PyVal) (in_image_url : String)
    (img_width img_height : PyVal) (is_smart : Bool) : Except PyErr PyVal := do
  let encoded_url := encode_url in_image_url
  let raw ←
    if is_smart then do
      let a ← pyAdd thumbor_base_url (.str "/unsafe/")
      let b ← pyAdd a img_width
      let c ← pyAdd b (.str "x")
      let d ← pyAdd c img_height
      let e ← pyAdd d (.str "/smart/")
      pyAdd e (.str encoded_url)
    else do
      let a ← pyAdd thumbor_base_url (.str "/unsafe/")
      let b ← pyAdd a img_width
      let c ← pyAdd b (.str "x")
      let d ← pyAdd c img_height
      let e ← pyAdd d (.str "/")
      pyAdd e (.str encoded_url)
  pyStripVal raw

/-- The tail of `generate_unsafe_url`: after the URL is computed and stripped,
`if is_copy: copy(unsafe_url)` runs with no surrounding `try`, so a clipboard
exception propagates; otherwise the URL is returned.  The clipboard is the
capability `clip`. -/
def generate_unsafe_url_run (clip : String → Except PyErr Unit)
    (thumbor_base_url in_image_url img_width img_height : String)
    (is_smart is_copy : Bool) : Except PyErr String :=
  let unsafe_url := generate_unsafe_url thumbor_base_url in_image_url img_width img_height is_smart
  if is_copy then
    match clip unsafe_url with
    | .error err => .error err
    | .ok _ => .ok unsafe_url
  else .ok unsafe_url

/-- Modelled from the spec: `libthumbor.CryptoURL(key=...)` is an external
signing capability whose source is not part of this repository.  Per the
specification, safe mode "fails with `SigningError` if `signing_key` is empty
or the signing capability raises"; `src/turl.py` likewise asserts the key is
non-empty before constructing it. -/
def cryptoURL (key : String) : Except PyErr Unit :=
  if key = "" then .error .signingError else .ok ()

/-- `generate_safe_url` from `src/thumbor-url-generator.py`.  The signing
capability `crypto.generate` (external `libthumbor`, not in this repository's
source) is the abstract parameter `signFn` applied to width, height, the smart
flag and the encoded image URL; `clip` is the clipboard capability.  Order as
in the source: construct `CryptoURL` (re-raising on failure), encode, sign,
concatenate with the base URL, `.strip()`, optionally copy (no `try` around
the copy), return. -/
def generate_safe_url_run (signFn : Int → Int → Bool → String → String)
    (clip : String → Except PyErr Unit)
    (thumbor_base_url thumbor_key in_image_url : String)
    (img_width img_height : Int) (is_smart is_copy : Bool) : Except PyErr String :=
  match cryptoURL thumbor_key with
  | .error err => .error err
  | .ok _ =>
    let encoded_url := encode_url in_image_url
    let encrypted_url := signFn img_width img_height is_smart encoded_url
    let safe_url := pyStrip (thumbor_base_url ++ encrypted_url)
    if is_copy then
      match clip safe_url with
      | .error err => .error err
      | .ok _ => .ok safe_url
    else .ok safe_url

/-- `generate_safe_url` from `src/turl.py`: it computes
`url = THUMBOR_URL + encrypted_url`, copies `url.strip()` when `is_copy`, and
returns nothing; the value of interest is therefore the string handed to the
clipboard (`none` when no copy was requested). -/
def turl_generate_safe_url (signFn : Int → Int → Bool → String → String)
    (in_image_url : String) (width height : Int) (smart is_copy : Bool) : Option String :=
  let encoded_url := encode_url in_image_url
  let encrypted_url := signFn width height smart encoded_url
  let url := "https://thumbor.sudacode.com" ++ encrypted_url
  if is_copy then some (pyStrip url) else none

/-- A command line for `src/thumbor-url-generator.py`: which store_true flags
appear (`-c`, `-S`, `-u`) and the integer arguments of `-W`/`-H` when
given. -/
structure CmdLine where
  copyFlag : Bool
  smartFlag : Bool
  unsafeFlag : Bool
  widthArg : Option Int
  heightArg : Option Int
  deriving DecidableEq, Repr

/-- The argparse result of `parse_args` in `src/thumbor-url-generator.py`:
`copy`/`smart`/`unsafeF` come from store_true flags (value `True` when the
flag is present, the declared default otherwise — `False`, `True`, `False`
respectively), `width`/`height` are `type=int` with no default, hence `None`
when absent. -/
structure Args where
  copy : Bool
  smart : Bool
  unsafeF : Bool
  width : Option Int
  height : Option Int
  deriving DecidableEq, Repr

/-- The environment variables read by `__main__`: `WIDTH`, `HEIGHT`, `SMART`,
`UNSAFE`, `COPY`, each a string or unset. -/
structure EnvVars where
  wEnv : Option String
  hEnv : Option String
  sEnv : Option String
  uEnv : Option String
  cEnv : Option String
  deriving DecidableEq, Repr

/-- `parse_args` of `src/thumbor-url-generator.py`: each store_true flag
yields `True` when present and its declared default otherwise (`-c` default
`False`, `-S` default `True`, `-u` default `False`); `-W`/`-H` are `type=int`
with no default. -/
def parse_args (cmd : CmdLine) : Args :=
  { copy := if cmd.copyFlag then true else false
    smart := if cmd.smartFlag then true else true
    unsafeF := if cmd.unsafeFlag then true else false
    width := cmd.widthArg
    height := cmd.heightArg }

/-- The option values resolved by `__main__` (lines 176–180), each a Python
value or `None`. -/
structure Resolved where
  width : Option PyVal
  height : Option PyVal
  smartV : Option PyVal
  unsafeV : Option PyVal
  copyV : Option PyVal
  deriving DecidableEq, Repr

/-- `__main__`'s merge `x = args.x if args.x is not None else e_x` for the five
options.  `args.width`/`args.height` are `int` or `None`; the fallbacks
`e_width`/`e_height` are `str` or `None` from `getenv`.  `args.smart`,
`args.unsafe` and `args.copy` are always booleans (store_true flags with
boolean defaults), so their `is not None` test is always true and the
environment fallback branch is dead code. -/
def resolve_opts (a : Args) (env : EnvVars) : Resolved :=
  { width := match a.width with
      | some n => some (.int n)
      | none => env.wEnv.map .str
    height := match a.height with
      | some n => some (.int n)
      | none => env.hEnv.map .str
    smartV := some (.bool a.smart)
    unsafeV := some (.bool a.unsafeF)
    copyV := some (.bool a.copy) }

/-- `__main__` lines 182–189: raise when `width is None and height is None`,
otherwise replace a `None` dimension by the integer `0` and continue to URL
generation.  The raised `Exception("Width or height is required")` is the
specification's ConfigurationError. -/
def check_dimensions (width height : Option PyVal) : Except PyErr (PyVal × PyVal) :=
  if width = none ∧ height = none then .error .configError
  else .ok (width.getD (.int 0), height.getD (.int 0))

/-- The resolution rule claimed by the specification for a store_true option
(used only to compare the claim against the code): an explicitly provided CLI
flag wins, otherwise the environment variable (a Python string, used by its
truthiness), otherwise the built-in default. -/
def claimed_flag_resolution (flagGiven : Bool) (envVar : Option String) (dflt : Bool) : Bool :=
  if flagGiven then true
  else match envVar with
    | some s => pyTruthy (.str s)
    | none => dflt

/-! ### Basic string and strip lemmas -/

/-- Appending strings appends their character data. -/
theorem data_append (s t : String) : (s ++ t).data = s.data ++ t.data := rfl

/-- The head surviving `dropWhile p` does not satisfy `p`. -/
theorem head_dropWhile {p : Char → Bool} :
    ∀ {l : List Char} {c : Char}, (l.dropWhile p).head? = some c → p c = false := by
  intro l
  induction l with
  | nil => intro c h; simp [List.dropWhile] at h
  | cons a t ih =>
    intro c h
    by_cases hp : p a
    · rw [List.dropWhile_cons_of_pos hp] at h
      exact ih h
    · rw [List.dropWhile_cons_of_neg hp] at h
      simp at h
      subst h
      simpa using hp

/-- `dropTrailing` keeps the head of the list when it returns anything. -/
theorem head_dropTrailing {p : Char → Bool} :
    ∀ {l : List Char} {c : Char}, (dropTrailing p l).head? = some c → l.head? = some c := by
  intro l
  induction l with
  | nil => intro c h; simp [dropTrailing] at h
  | cons a t ih =>
    intro c h
    rw [dropTrailing] at h
    rcases hr : dropTrailing p t with _ | ⟨r, rs⟩
    · rw [hr] at h
      by_cases hp : p a <;> simp [hp] at h
      simpa using h
    · rw [hr] at h
      simp at h
      simpa using h

/-- The last element surviving `dropTrailing p` does not satisfy `p`. -/
theorem getLast_dropTrailing {p : Char → Bool} :
    ∀ {l : List Char} {c : Char}, (dropTrailing p l).getLast? = some c → p c = false := by
  intro l
  induction l with
  | nil => intro c h; simp [dropTrailing] at h
  | cons a t ih =>
    intro c h
    rw [dropTrailing] at h
    rcases hr : dropTrailing p t with _ | ⟨r, rs⟩
    · rw [hr] at h
      by_cases hp : p a <;> simp [hp] at h
      subst h
      simpa using hp
    · rw [hr] at h
      rw [List.getLast?_cons_cons] at h
      exact ih (hr ▸ h)

/-- `dropTrailing` is the identity when the last element does not satisfy
`p`. -/
theorem dropTrailing_eq_self {p : Char → Bool} :
    ∀ {l : List Char}, (∀ c, l.getLast? = some c → p c = false) → dropTrailing p l = l := by
  intro l
  induction l with
  | nil => intro _; rfl
  | cons a t ih =>
    intro h
    have hlast : ∀ c, t.getLast? = some c → p c = false := by
      intro c hc
      apply h
      cases t with
      | nil => simp at hc
      | cons b ts => rw [List.getLast?_cons_cons]; exact hc
    rw [dropTrailing, ih hlast]
    cases t with
    | nil =>
      have hpa : p a = false := h a (by simp)
      simp [hpa]
    | cons b ts => rfl

/-- `stripList` is the identity when neither end is whitespace. -/
theorem stripList_eq_self {l : List Char}
    (h1 : ∀ c, l.head? = some c → isPySpace c = false)
    (h2 : ∀ c, l.getLast? = some c → isPySpace c = false) : stripList l = l := by
  rw [stripList]
  have hd : l.dropWhile isPySpace = l := by
    rcases hl : l with _ | ⟨a, t⟩
    · rfl
    · have : isPySpace a = false := h1 a (by rw [hl]; rfl)
      rw [List.dropWhile_cons_of_neg (by simp [this])]
  rw [hd]
  exact dropTrailing_eq_self h2

/-- The first character of a stripped list is not whitespace. -/
theorem stripList_head {l : List Char} {c : Char}
    (h : (stripList l).head? = some c) : isPySpace c = false :=
  head_dropWhile (head_dropTrailing h)

/-- The last character of a stripped list is not whitespace. -/
theorem stripList_getLast {l : List Char} {c : Char}
    (h : (stripList l).getLast? = some c) : isPySpace c = false :=
  getLast_dropTrailing h

/-- A `getLast?` value is a member of the list. -/
theorem mem_of_getLast?_eq : ∀ {l : List Char} {c : Char}, l.getLast? = some c → c ∈ l := by
  intro l
  induction l with
  | nil => intro c h; simp at h
  | cons a t ih =>
    intro c h
    cases t with
    | nil => simp at h; simp [h]
    | cons b ts =>
      rw [List.getLast?_cons_cons] at h
      exact List.mem_cons_of_mem a (ih h)

/-! ### Character-level structure of the URL encoder -/

/-- `replace("/", "%2F")` distributes over concatenation. -/
theorem replaceSlashList_append :
    ∀ a b : List Char, replaceSlashList (a ++ b) = replaceSlashList a ++ replaceSlashList b := by
  intro a b
  induction a with
  | nil => rfl
  | cons c rest ih =>
    simp only [List.cons_append, replaceSlashList, List.append_eq, ih, List.append_assoc]

/-- The encoder processes its input character by character. -/
theorem encodeList_cons (c : Char) (l : List Char) :
    encodeList (c :: l) = ecChar c ++ encodeList l := by
  rw [encodeList, quoteList, replaceSlashList_append]
  rfl

/-- Members of a replaced list are `%2F` material or non-slash members of the
original. -/
theorem mem_replaceSlashList {x : Char} :
    ∀ {m : List Char}, x ∈ replaceSlashList m →
      (x = '%' ∨ x = '2' ∨ x = 'F') ∨ (x ∈ m ∧ x ≠ '/') := by
  intro m
  induction m with
  | nil => intro h; simp [replaceSlashList] at h
  | cons c rest ih =>
    intro h
    rw [replaceSlashList] at h
    rcases List.mem_append.mp h with h1 | h2
    · by_cases hc : c = '/'
      · rw [if_pos hc] at h1
        simp at h1
        rcases h1 with h1 | h1 | h1 <;> simp [h1]
      · rw [if_neg hc] at h1
        simp at h1
        subst h1
        exact Or.inr ⟨List.mem_cons_self _ _, hc⟩
    · rcases ih h2 with h3 | ⟨h3, h4⟩
      · exact Or.inl h3
      · exact Or.inr ⟨List.mem_cons_of_mem c h3, h4⟩

/-- Members of quoted bytes come from quoting a single byte. -/
theorem mem_bytesQuote {x : Char} :
    ∀ {bl : List Nat}, x ∈ bytesQuote bl → ∃ b ∈ bl, x ∈ byteQuote b := by
  intro bl
  induction bl with
  | nil => intro h; simp [bytesQuote] at h
  | cons b rest ih =>
    intro h
    rw [bytesQuote] at h
    rcases List.mem_append.mp h with h1 | h2
    · exact ⟨b, List.mem_cons_self b rest, h1⟩
    · obtain ⟨b2, hb2, hx⟩ := ih h2
      exact ⟨b2, List.mem_cons_of_mem b hb2, hx⟩

/-- A safe byte is below 128. -/
theorem safeByte_lt (b : Nat) (h : isSafeByte b = true) : b < 128 := by
  simp [isSafeByte] at h
  omega

/-- Characters standing for safe bytes are neither `:` nor `%` nor
whitespace. -/
theorem safeByte_char_class :
    ∀ b : Nat, b < 128 → isSafeByte b = true →
      Char.ofNat b ≠ ':' ∧ Char.ofNat b ≠ '%' ∧ isPySpace (Char.ofNat b) = false := by
  decide

/-- The hexadecimal digit table: digit recognition, value round-trip, and
character classification for indices below 16. -/
theorem hexDigit_class :
    ∀ d : Nat, d < 16 →
      (isHexDigit (hexDigit d) = true ∧ hexVal (hexDigit d) = d) ∧
        (hexDigit d ≠ '%' ∧ hexDigit d ≠ '/' ∧ hexDigit d ≠ ':' ∧
          isPySpace (hexDigit d) = false) := by
  decide

/-- Out-of-range indices default to `'0'`. -/
theorem hexDigit_ge16 (d : Nat) (h : 16 ≤ d) : hexDigit d = '0' := by
  have hlen : ("0123456789ABCDEF".data).length = 16 := rfl
  rw [hexDigit, List.getD_eq_getElem?_getD, List.getElem?_eq_none (by omega)]
  rfl

/-- Character classification of any hex-digit-table output. -/
theorem hexDigit_class_all (d : Nat) :
    hexDigit d ≠ '%' ∧ hexDigit d ≠ '/' ∧ hexDigit d ≠ ':' ∧
      isPySpace (hexDigit d) = false := by
  by_cases h : d < 16
  · exact (hexDigit_class d h).2
  · rw [hexDigit_ge16 d (by omega)]
    decide

/-- For ASCII input characters, quoting is single-byte quoting. -/
theorem quoteChar_ascii {c : Char} (hc : c.toNat < 128) :
    quoteChar c = byteQuote c.toNat := by
  rw [quoteChar, utf8Bytes, if_pos hc, bytesQuote, bytesQuote, List.append_nil]

/-- A safe non-slash ASCII character encodes to itself. -/
theorem ecChar_safe {c : Char} (hc : c.toNat < 128) (hs : isSafeByte c.toNat = true)
    (hns : c ≠ '/') : ecChar c = [c] := by
  rw [ecChar, quoteChar_ascii hc, byteQuote, if_pos hs, Char.ofNat_toNat]
  simp [replaceSlashList, hns]

/-- The slash encodes to `%2F`. -/
theorem ecChar_slash : ecChar '/' = ['%', '2', 'F'] := by decide

/-- An unsafe ASCII character encodes to its percent escape. -/
theorem ecChar_pct {c : Char} (hc : c.toNat < 128) (hs : isSafeByte c.toNat = false) :
    ecChar c = ['%', hexDigit (c.toNat / 16), hexDigit (c.toNat % 16)] := by
  rw [ecChar, quoteChar_ascii hc, byteQuote, if_neg (by simp [hs]), pctEncode]
  have hd1 := (hexDigit_class_all (c.toNat / 16)).2.1
  have hd2 := (hexDigit_class_all (c.toNat % 16)).2.1
  simp [replaceSlashList, hd1, hd2]

/-- `replace2FList` passes over a head character other than `%`. -/
theorem replace2F_cons {c : Char} (l : List Char) (h : c ≠ '%') :
    replace2FList (c :: l) = c :: replace2FList l := by
  rw [replace2FList.eq_def]
  split
  · rename_i heq
    injection heq with h1 _
    exact absurd h1 h
  · rename_i heq
    injection heq with h1 h2
    rw [← h1, ← h2]
  · rename_i heq
    exact absurd heq (by simp)

/-- `replace2FList` rewrites a literal `%2F` prefix. -/
theorem replace2F_seq (rest : List Char) :
    replace2FList ('%' :: '2' :: 'F' :: rest) = '/' :: replace2FList rest := rfl

/-- `replace2FList` passes over a percent escape other than `%2F`. -/
theorem replace2F_pct {h1 h2 : Char} (rest : List Char) (hne : ¬(h1 = '2' ∧ h2 = 'F')) :
    replace2FList ('%' :: h1 :: h2 :: rest) = '%' :: replace2FList (h1 :: h2 :: rest) := by
  rw [replace2FList.eq_def]
  split
  · rename_i heq
    injection heq with _ heq2
    injection heq2 with ha heq3
    injection heq3 with hb _
    exact absurd ⟨ha, hb⟩ hne
  · rename_i heq
    injection heq with h1 h2
    rw [← h1, ← h2]
  · rename_i heq
    exact absurd heq (by simp)

/-- Percent-decoding passes over a head character other than `%`. -/
theorem unquote_cons {c : Char} (l : List Char) (h : c ≠ '%') :
    unquoteList (c :: l) = c :: unquoteList l := by
  rw [unquoteList.eq_def]
  split
  · rename_i heq
    exact absurd heq (by simp)
  · rename_i heq
    injection heq with h1 _
    exact absurd h1 h
  · rename_i heq
    injection heq with h1 h2
    rw [← h1, ← h2]

/-- Percent-decoding decodes a valid escape. -/
theorem unquote_pct {h1 h2 : Char} (rest : List Char) (hh1 : isHexDigit h1 = true)
    (hh2 : isHexDigit h2 = true) :
    unquoteList ('%' :: h1 :: h2 :: rest) =
      Char.ofNat (hexVal h1 * 16 + hexVal h2) :: unquoteList rest := by
  simp [unquoteList, hh1, hh2]

/-- An unsafe ASCII byte never percent-encodes to the escape of `/`. -/
theorem pct_ne_slash_escape :
    ∀ n : Nat, n < 128 → isSafeByte n = false →
      ¬(hexDigit (n / 16) = '2' ∧ hexDigit (n % 16) = 'F') := by
  decide

/-- Decoding one encoded character in front of any tail recovers that
character. -/
theorem decode_step {c : Char} (hc : c.toNat < 128) (X : List Char) :
    unquoteList (replace2FList (ecChar c ++ X)) = c :: unquoteList (replace2FList X) := by
  by_cases hs : isSafeByte c.toNat
  · by_cases hsl : c = '/'
    · subst hsl
      rw [ecChar_slash]
      show unquoteList (replace2FList ('%' :: '2' :: 'F' :: X)) = _
      rw [replace2F_seq, unquote_cons _ (by decide)]
    · rw [ecChar_safe hc hs hsl]
      have hcp : c ≠ '%' := by
        intro he
        rw [he] at hs
        exact absurd hs (by decide)
      show unquoteList (replace2FList (c :: X)) = _
      rw [replace2F_cons _ hcp, unquote_cons _ hcp]
  · have hs' : isSafeByte c.toNat = false := by simpa using hs
    rw [ecChar_pct hc hs']
    have hq : c.toNat / 16 < 16 := by omega
    have hr : c.toNat % 16 < 16 := by omega
    have hdq := hexDigit_class (c.toNat / 16) hq
    have hdr := hexDigit_class (c.toNat % 16) hr
    show unquoteList (replace2FList ('%' :: hexDigit (c.toNat / 16) :: hexDigit (c.toNat % 16) :: X)) = _
    rw [replace2F_pct _ (pct_ne_slash_escape c.toNat hc hs'),
      replace2F_cons _ hdq.2.1, replace2F_cons _ hdr.2.1,
      unquote_pct _ hdq.1.1 hdr.1.1, hdq.1.2, hdr.1.2]
    have hval : c.toNat / 16 * 16 + c.toNat % 16 = c.toNat := by omega
    rw [hval, Char.ofNat_toNat]

/-- Round trip on character lists: decoding the encoder's output restores any
ASCII input. -/
theorem encode_roundtrip_list :
    ∀ l : List Char, (∀ c ∈ l, c.toNat < 128) →
      unquoteList (replace2FList (encodeList l)) = l := by
  intro l
  induction l with
  | nil => intro _; rfl
  | cons c t ih =>
    intro h
    rw [encodeList_cons, decode_step (h c (List.mem_cons_self _ _)),
      ih (fun x hx => h x (List.mem_cons_of_mem _ hx))]

/-- Every character the encoder can emit for a single input character is
neither `/` nor `:` nor whitespace. -/
theorem ecChar_class {x c : Char} (h : x ∈ ecChar c) :
    x ≠ '/' ∧ x ≠ ':' ∧ isPySpace x = false := by
  rw [ecChar, quoteChar] at h
  rcases mem_replaceSlashList h with h1 | ⟨h2, hns⟩
  · rcases h1 with rfl | rfl | rfl
    · exact ⟨by decide, by decide, by decide⟩
    · exact ⟨by decide, by decide, by decide⟩
    · exact ⟨by decide, by decide, by decide⟩
  · obtain ⟨b, _, hx⟩ := mem_bytesQuote h2
    rw [byteQuote] at hx
    by_cases hsafe : isSafeByte b
    · rw [if_pos hsafe] at hx
      simp at hx
      subst hx
      have hcls := safeByte_char_class b (safeByte_lt b hsafe) hsafe
      exact ⟨hns, hcls.1, hcls.2.2⟩
    · rw [if_neg hsafe] at hx
      rcases (by simpa [pctEncode] using hx :
          x = '%' ∨ x = hexDigit (b / 16) ∨ x = hexDigit (b % 16)) with rfl | rfl | rfl
      · exact ⟨by decide, by decide, by decide⟩
      · have hcls := hexDigit_class_all (b / 16)
        exact ⟨hcls.2.1, hcls.2.2.1, hcls.2.2.2⟩
      · have hcls := hexDigit_class_all (b % 16)
        exact ⟨hcls.2.1, hcls.2.2.1, hcls.2.2.2⟩

/-- Every character of the encoder's output is neither `/` nor `:` nor
whitespace. -/
theorem mem_encodeList_class {x : Char} :
    ∀ {l : List Char}, x ∈ encodeList l → x ≠ '/' ∧ x ≠ ':' ∧ isPySpace x = false := by
  intro l
  induction l with
  | nil => intro h; simp [encodeList, quoteList, replaceSlashList] at h
  | cons c t ih =>
    intro h
    rw [encodeList_cons] at h
    rcases List.mem_append.mp h with h1 | h2
    · exact ecChar_class h1
    · exact ih h2

/-- Stripping is a no-op on the assembled unsafe URL when the base URL does
not begin with whitespace: the separator ends in `/` and encoder output
contains no whitespace. -/
theorem strip_noop_concat (base w h sep : String) (enc : List Char)
    (hbase : ∀ c, base.data.head? = some c → isPySpace c = false)
    (hsep_ne : sep.data ≠ [])
    (hsep_last : sep.data.getLast? = some '/')
    (henc : ∀ x ∈ enc, isPySpace x = false) :
    stripList (base.data ++ "/unsafe/".data ++ w.data ++ "x".data ++ h.data ++ sep.data ++ enc) =
      base.data ++ "/unsafe/".data ++ w.data ++ "x".data ++ h.data ++ sep.data ++ enc := by
  apply stripList_eq_self
  · intro c hc
    rw [show base.data ++ "/unsafe/".data ++ w.data ++ "x".data ++ h.data ++ sep.data ++ enc =
        base.data ++ ("/unsafe/".data ++ (w.data ++ ("x".data ++ (h.data ++ (sep.data ++ enc)))))
      from by simp [List.append_assoc]] at hc
    cases hb : base.data with
    | nil =>
      rw [hb, List.nil_append] at hc
      have hcc : '/' = c := by simpa using hc
      rw [← hcc]
      decide
    | cons a t =>
      rw [hb] at hc
      have ha : a = c := by simpa using hc
      subst ha
      exact hbase a (by rw [hb]; rfl)
  · intro c hc
    cases he : enc with
    | nil =>
      rw [he, List.append_nil] at hc
      rw [List.getLast?_append_of_ne_nil _ hsep_ne, hsep_last] at hc
      have hcc : '/' = c := by simpa using hc
      rw [← hcc]
      decide
    | cons e es =>
      rw [he] at hc
      rw [List.getLast?_append_of_ne_nil _ (by simp)] at hc
      exact henc c (he ▸ mem_of_getLast?_eq hc)

/-- C1, counterexample: for the valid request with `base_url = " b"` (leading
space), width "3", height "4", smart crop, the builder's `.strip()` makes the
output differ from the claimed plain concatenation. -/
theorem C1_counterexample :
    generate_unsafe_url " b" "u" "3" "4" true ≠
      " b" ++ "/unsafe/" ++ "3" ++ "x" ++ "4" ++ "/smart/" ++ encode_url "u" := by
  decide

/-- C1, amended: the unsafe URL builder returns exactly the Python-stripped
concatenation `base_url + "/unsafe/" + width + "x" + height + cropSegment +
encoded_url` with `cropSegment = "/smart/"` iff smart is true (`"/"`
otherwise); when `base_url` does not begin with whitespace the stripping is a
no-op and the output is exactly that concatenation. -/
theorem C1_unsafe_url_shape (base in_url w h : String) (smart : Bool) :
    generate_unsafe_url base in_url w h smart =
        pyStrip (base ++ "/unsafe/" ++ w ++ "x" ++ h ++
          (if smart then "/smart/" else "/") ++ encode_url in_url) ∧
      ((∀ c, base.data.head? = some c → isPySpace c = false) →
        generate_unsafe_url base in_url w h smart =
          base ++ "/unsafe/" ++ w ++ "x" ++ h ++
            (if smart then "/smart/" else "/") ++ encode_url in_url) := by
  have hshape : generate_unsafe_url base in_url w h smart =
      pyStrip (base ++ "/unsafe/" ++ w ++ "x" ++ h ++
        (if smart then "/smart/" else "/") ++ encode_url in_url) := by
    cases smart <;> rfl
  refine ⟨hshape, fun hbase => ?_⟩
  rw [hshape]
  have henc : ∀ x ∈ (encode_url in_url).data, isPySpace x = false :=
    fun x hx => (mem_encodeList_class hx).2.2
  cases smart
  · show String.mk (stripList (base.data ++ "/unsafe/".data ++ w.data ++ "x".data ++
        h.data ++ "/".data ++ (encode_url in_url).data)) =
      String.mk (base.data ++ "/unsafe/".data ++ w.data ++ "x".data ++
        h.data ++ "/".data ++ (encode_url in_url).data)
    rw [strip_noop_concat base w h "/" (encode_url in_url).data hbase (by decide) (by decide) henc]
  · show String.mk (stripList (base.data ++ "/unsafe/".data ++ w.data ++ "x".data ++
        h.data ++ "/smart/".data ++ (encode_url in_url).data)) =
      String.mk (base.data ++ "/unsafe/".data ++ w.data ++ "x".data ++
        h.data ++ "/smart/".data ++ (encode_url in_url).data)
    rw [strip_noop_concat base w h "/smart/" (encode_url in_url).data hbase (by decide) (by decide) henc]

/-- C1, witness for the amended theorem: a concrete clean request where the
output is exactly the concatenation, with the `/smart/` segment present. -/
theorem C1_unsafe_url_shape_witness :
    generate_unsafe_url "https://t" "u" "3" "4" true =
      "https://t" ++ "/unsafe/" ++ "3" ++ "x" ++ "4" ++ "/smart/" ++ encode_url "u" :=
  (C1_unsafe_url_shape "https://t" "u" "3" "4" true).2 (by decide)

/-- C2, counterexample: on the spec's scenario input the builder's output does
not have the space double-encoded as `%2520`; the claimed exact output string
is wrong. -/
theorem C2_counterexample :
    generate_unsafe_url "https://img.example.com" "http://example.com/a b.jpg" "300" "200" true ≠
      "https://img.example.com/unsafe/300x200/smart/http%3A%2F%2Fexample.com%2Fa%2520b.jpg" := by
  decide

/-- C2, amended: on the scenario input the output is exactly the URL with the
space encoded once, as `%20` (single quoting pass; the `/`→`%2F` step does not
re-encode percent signs). -/
theorem C2_scenario_output :
    generate_unsafe_url "https://img.example.com" "http://example.com/a b.jpg" "300" "200" true =
      "https://img.example.com/unsafe/300x200/smart/http%3A%2F%2Fexample.com%2Fa%20b.jpg" := by
  decide

/-- C3: for every non-empty ASCII string containing `:` and `/`, the encoder's
output contains no literal `/` or `:`, and restoring `%2F` to `/` then
percent-decoding recovers the original string exactly. -/
theorem C3_encode_roundtrip (s : String) (h0 : s ≠ "") (hcolon : ':' ∈ s.data)
    (hslash : '/' ∈ s.data) (hA : ∀ c ∈ s.data, c.toNat < 128) :
    (∀ x ∈ (encode_url s).data, x ≠ '/' ∧ x ≠ ':') ∧
      percentDecode (restore2F (encode_url s)) = s := by
  constructor
  · intro x hx
    have hcls := mem_encodeList_class (l := s.data) hx
    exact ⟨hcls.1, hcls.2.1⟩
  · show String.mk (unquoteList (replace2FList (encodeList s.data))) = s
    rw [encode_roundtrip_list s.data hA]

/-- C3, witness: the concrete ASCII URL `"ht:/a b"` (non-empty, contains `:`
and `/`) encodes without `/` or `:` and round-trips. -/
theorem C3_encode_roundtrip_witness :
    (∀ x ∈ (encode_url "ht:/a b").data, x ≠ '/' ∧ x ≠ ':') ∧
      percentDecode (restore2F (encode_url "ht:/a b")) = "ht:/a b" :=
  C3_encode_roundtrip "ht:/a b" (by decide) (by decide) (by decide) (by decide)

/-- C4, counterexample: with copy requested and a failing clipboard, the
unsafe builder's run raises the clipboard error instead of returning the
computed URL — the bare `copy(...)` call has no `try` around it. -/
theorem C4_counterexample :
    generate_unsafe_url_run (fun _ => .error .clipboardError) "https://t" "u" "3" "4" true true =
      .error .clipboardError := rfl

/-- C4, amended: when copy is requested, a clipboard failure propagates out of
either builder and no URL is returned; only when the clipboard write succeeds
is the computed URL returned. -/
theorem C4_clipboard_propagates (base key in_url w h : String) (smart : Bool) (e : PyErr)
    (signFn : Int → Int → Bool → String → String) (wI hI : Int) :
    generate_unsafe_url_run (fun _ => .error e) base in_url w h smart true = .error e ∧
    generate_unsafe_url_run (fun _ => .ok ()) base in_url w h smart true =
      .ok (generate_unsafe_url base in_url w h smart) ∧
    generate_safe_url_run signFn (fun _ => .error e) base key in_url wI hI smart true =
      (if key = "" then .error .signingError else .error e) ∧
    generate_safe_url_run signFn (fun _ => .ok ()) base key in_url wI hI smart true =
      (if key = "" then .error .signingError
        else .ok (pyStrip (base ++ signFn wI hI smart (encode_url in_url)))) := by
  refine ⟨rfl, rfl, ?_, ?_⟩
  · by_cases hk : key = "" <;>
      simp [generate_safe_url_run, cryptoURL, hk]
  · by_cases hk : key = "" <;>
      simp [generate_safe_url_run, cryptoURL, hk]

/-- C5, counterexample: when width and height both resolve to the explicit
integer zero, the dimension check succeeds and no ConfigurationError is
raised — only the both-`None` case errors. -/
theorem C5_counterexample :
    check_dimensions (some (.int 0)) (some (.int 0)) = .ok (.int 0, .int 0) ∧
      check_dimensions (some (.int 0)) (some (.int 0)) ≠ .error .configError :=
  ⟨rfl, fun hh => Except.noConfusion hh⟩

/-- C5, amended: the dimension check raises the ConfigurationError exactly
when both width and height are absent (`None`); explicit zeros pass and URL
generation proceeds with `0`/`0`. -/
theorem C5_config_check (w h : Option PyVal) :
    check_dimensions w h = .error .configError ↔ w = none ∧ h = none := by
  by_cases hwh : w = none ∧ h = none
  · simp [check_dimensions, hwh]
  · simp [check_dimensions, hwh]

/-- C6: in safe mode with an empty signing key the builder fails with the
SigningError and returns no URL at all — in particular it never falls back to
an unsafe URL. -/
theorem C6_empty_key_signing_error (signFn : Int → Int → Bool → String → String)
    (clip : String → Except PyErr Unit) (base in_url : String) (wI hI : Int)
    (smart is_copy : Bool) :
    generate_safe_url_run signFn clip base "" in_url wI hI smart is_copy =
        .error .signingError ∧
      ∀ s : String,
        generate_safe_url_run signFn clip base "" in_url wI hI smart is_copy ≠ .ok s := by
  have h : generate_safe_url_run signFn clip base "" in_url wI hI smart is_copy =
      .error .signingError := by
    simp [generate_safe_url_run, cryptoURL]
  exact ⟨h, fun s hs => by rw [h] at hs; exact absurd hs (by simp)⟩

/-- C7, counterexample: with no `-u` flag on the command line and the
environment variable `UNSAFE="1"` set, the code resolves unsafe to the falsy
parsed value `False`, while the claimed CLI-then-environment precedence would
resolve it truthy — the store_true flags mask their environment variables. -/
theorem C7_counterexample :
    pyTruthyOpt ((resolve_opts (parse_args ⟨false, false, false, none, none⟩)
        ⟨none, none, none, some "1", none⟩).unsafeV) = false ∧
      claimed_flag_resolution false (some "1") false = true := by
  decide

/-- C7, amended: width and height resolve CLI-value-if-provided, else
environment string, else `None` (later defaulted to `0`, not `800`); smart,
unsafe and copy always take the parsed CLI value — smart is always `True`,
unsafe/copy are `True` exactly when the flag is present — and the `SMART`,
`UNSAFE`, `COPY` environment variables are never consulted. -/
theorem C7_resolution (cmd : CmdLine) (env : EnvVars) :
    (resolve_opts (parse_args cmd) env).width =
        (match cmd.widthArg with
          | some n => some (PyVal.int n)
          | none => Option.map PyVal.str env.wEnv) ∧
      (resolve_opts (parse_args cmd) env).height =
        (match cmd.heightArg with
          | some n => some (PyVal.int n)
          | none => Option.map PyVal.str env.hEnv) ∧
      (resolve_opts (parse_args cmd) env).smartV = some (.bool true) ∧
      (resolve_opts (parse_args cmd) env).unsafeV = some (.bool cmd.unsafeFlag) ∧
      (resolve_opts (parse_args cmd) env).copyV = some (.bool cmd.copyFlag) := by
  obtain ⟨cf, sf, uf, wa, ha⟩ := cmd
  cases sf <;> cases uf <;> cases cf <;> exact ⟨rfl, rfl, rfl, rfl, rfl⟩

/-- C8: in both modes the returned URL is the whitespace-stripped assembled
string, the very same string is what reaches the clipboard capability, and it
has no leading or trailing whitespace; `turl.py`'s safe builder likewise hands
the stripped URL to the clipboard (it returns nothing). -/
theorem C8_trimmed_before_copy_and_return (clip : String → Except PyErr Unit)
    (signFn : Int → Int → Bool → String → String)
    (base key in_url w h : String) (wI hI : Int) (smart : Bool) :
    (generate_unsafe_url_run clip base in_url w h smart true =
        (clip (generate_unsafe_url base in_url w h smart) >>= fun _ =>
          pure (generate_unsafe_url base in_url w h smart))) ∧
      (∀ c, (generate_unsafe_url base in_url w h smart).data.head? = some c →
        isPySpace c = false) ∧
      (∀ c, (generate_unsafe_url base in_url w h smart).data.getLast? = some c →
        isPySpace c = false) ∧
      (generate_safe_url_run signFn clip base key in_url wI hI smart true =
        (if key = "" then .error .signingError
          else clip (pyStrip (base ++ signFn wI hI smart (encode_url in_url))) >>= fun _ =>
            pure (pyStrip (base ++ signFn wI hI smart (encode_url in_url))))) ∧
      (∀ c, (pyStrip (base ++ signFn wI hI smart (encode_url in_url))).data.head? = some c →
        isPySpace c = false) ∧
      (∀ c, (pyStrip (base ++ signFn wI hI smart (encode_url in_url))).data.getLast? = some c →
        isPySpace c = false) ∧
      turl_generate_safe_url signFn in_url wI hI smart true =
        some (pyStrip ("https://thumbor.sudacode.com" ++ signFn wI hI smart (encode_url in_url))) := by
  refine ⟨?_, ?_, ?_, ?_, ?_, ?_, rfl⟩
  · cases hc : clip (generate_unsafe_url base in_url w h smart) <;>
      simp [generate_unsafe_url_run, hc, Bind.bind, Except.bind, pure, Except.pure]
  · intro c hc
    exact stripList_head hc
  · intro c hc
    exact stripList_getLast hc
  · by_cases hk : key = ""
    · simp [generate_safe_url_run, cryptoURL, hk]
    · cases hc : clip (pyStrip (base ++ signFn wI hI smart (encode_url in_url))) <;>
        simp [generate_safe_url_run, cryptoURL, hk, hc, Bind.bind, Except.bind, pure, Except.pure]
  · intro c hc
    exact stripList_head hc
  · intro c hc
    exact stripList_getLast hc

/-- C8, witness: on a concrete request, the unsafe run hands the stripped URL
to the clipboard and returns it, and its first character is not whitespace. -/
theorem C8_trimmed_witness :
    (generate_unsafe_url_run (fun _ => .ok ()) "https://t" "u" "3" "4" true true =
        ((fun _ => (.ok () : Except PyErr Unit)) (generate_unsafe_url "https://t" "u" "3" "4" true) >>= fun _ =>
          pure (generate_unsafe_url "https://t" "u" "3" "4" true))) ∧
      isPySpace 'h' = false :=
  ⟨(C8_trimmed_before_copy_and_return (fun _ => .ok ()) (fun _ _ _ _ => "/s") "https://t" "k"
      "u" "3" "4" 1 2 true).1,
    (C8_trimmed_before_copy_and_return (fun _ => .ok ()) (fun _ _ _ _ => "/s") "https://t" "k"
      "u" "3" "4" 1 2 true).2.1 'h' (by decide)⟩

/-- C9: the unsafe builder's `+` chain never converts its operands, so it
raises a TypeError whenever width (or, width being a string, height) is an
integer as produced by the argparse `type=int` flags, and returns the URL
exactly when both are strings. -/
theorem C9_int_width_type_error (base in_url : String) (w h : PyVal) (smart : Bool) :
    ((∃ n, w = PyVal.int n) ∨ (∃ n, h = PyVal.int n) →
      generate_unsafe_url_dyn (.str base) in_url w h smart = .error .typeError) ∧
      (∀ ws hs, w = .str ws → h = .str hs →
        generate_unsafe_url_dyn (.str base) in_url w h smart =
          .ok (.str (generate_unsafe_url base in_url ws hs smart))) := by
  constructor
  · rintro (⟨n, rfl⟩ | ⟨n, rfl⟩)
    · cases smart <;> rfl
    · cases w <;> cases smart <;> rfl
  · rintro ws hs rfl rfl
    cases smart <;> rfl

/-- C9, witness: with the parser's integer width 300 the builder raises the
TypeError; with string dimensions it returns the unsafe URL. -/
theorem C9_int_width_type_error_witness :
    generate_unsafe_url_dyn (.str "https://t") "u" (.int 300) (.int 0) true =
        .error .typeError ∧
      generate_unsafe_url_dyn (.str "https://t") "u" (.str "300") (.str "0") true =
        .ok (.str (generate_unsafe_url "https://t" "u" "300" "0" true)) :=
  ⟨(C9_int_width_type_error "https://t" "u" (.int 300) (.int 0) true).1 (Or.inl ⟨300, rfl⟩),
    (C9_int_width_type_error "https://t" "u" (.str "300") (.str "0") true).2 "300" "0" rfl rfl⟩

/-- C10: the `-S` flag is store_true with default `True`, so the parsed smart
value is `True` for every command line, the resolved smart option is always
the truthy `True`, and the unsafe builder is therefore always invoked on its
smart branch. -/
theorem C10_smart_always_true (cmd : CmdLine) (env : EnvVars) (base in_url w h : String) :
    (parse_args cmd).smart = true ∧
      (resolve_opts (parse_args cmd) env).smartV = some (.bool true) ∧
      pyTruthyOpt ((resolve_opts (parse_args cmd) env).smartV) = true ∧
      generate_unsafe_url base in_url w h
          (pyTruthyOpt ((resolve_opts (parse_args cmd) env).smartV)) =
        generate_unsafe_url base in_url w h true := by
  obtain ⟨cf, sf, uf, wa, ha⟩ := cmd
  cases sf <;> exact ⟨rfl, rfl, rfl, rfl⟩

/-- C6, witness: a concrete safe-mode invocation with the empty key yields the
SigningError. -/
theorem C6_empty_key_signing_error_witness :
    generate_safe_url_run (fun _ _ _ _ => "/s") (fun _ => .ok ()) "https://t" "" "u" 1 2
        true true = .error .signingError ∧
      generate_safe_url_run (fun _ _ _ _ => "/s") (fun _ => .ok ()) "https://t" "" "u" 1 2
        true true ≠ .ok "https://t/s" :=
  ⟨(C6_empty_key_signing_error (fun _ _ _ _ => "/s") (fun _ => .ok ()) "https://t" "u" 1 2
      true true).1,
    (C6_empty_key_signing_error (fun _ _ _ _ => "/s") (fun _ => .ok ()) "https://t" "u" 1 2
      true true).2 "https://t/s"⟩
